import Mathlib

/-!
# Verification of the call lifecycle core of CallAgentAI

Shallow embedding of the call orchestration core:
* `src/server/services/callManager.ts` (`CallManager`: `initiateCall`,
  `handleUserInput`, `endCall`, `handleCallStatusUpdate`),
* `src/server/services/openai.ts` (`OpenAIService`: `generateResponse`,
  `calculateSuccessScore`),
* the Twilio webhook routes (`POST /api/calls/:callId/process-speech`,
  `POST /api/calls/webhook/status`).

External collaborators (the OpenAI chat completion call, Twilio, the
persistence facade `storage`, transcription) are modelled as explicit
parameters/oracles; every branch of the embedded functions mirrors the
corresponding TypeScript control flow.  JavaScript truthiness of optional
string fields is modelled by `jsTruthy`; a JavaScript number that may be
`NaN` is modelled by `Option Int` (`none` = `NaN`).
-/

namespace CallAgent

/-- JS truthiness of an optional string field (`undefined`/`null`/`""` are
falsy, every other string truthy). -/
def jsTruthy : Option String → Bool
  | none => false
  | some s => s ≠ ""

/-- A string that is empty or whitespace-only: models the JS test
`!s || s.trim() === ""`. -/
def jsBlank (s : String) : Bool :=
  s = "" || s.trim = ""

/-- A `Map` keyed by strings, as a total lookup function
(`Map.prototype.get` is application). -/
def KeyMap (α : Type) : Type := String → Option α

/-- Models `Map.prototype.set`. -/
def mapSet {α : Type} (m : KeyMap α) (k : String) (v : α) : KeyMap α :=
  fun x => if x = k then some v else m x

/-- Models `Map.prototype.delete`. -/
def mapDel {α : Type} (m : KeyMap α) (k : String) : KeyMap α :=
  fun x => if x = k then none else m x

/-! ## Data model -/

/-- Role of a conversation entry (`'user' | 'assistant'`). -/
inductive Role where
  | user
  | assistant
deriving Repr, DecidableEq

/-- One entry of `conversationHistory`. -/
structure ChatMsg where
  role : Role
  content : String
deriving Repr, DecidableEq

/-- The structured data the generator extracts during a turn
(`aiResponse.extractedData`); each field is an optional string, `none`
standing for a key absent from the JSON object. -/
structure ExtractedData where
  whatsapp_number : Option String := none
  email : Option String := none
  contact_complete : Option String := none
  customer_interest : Option String := none
  name : Option String := none
  company : Option String := none
  notes : Option String := none
deriving Repr, DecidableEq

instance : Inhabited ExtractedData := ⟨{}⟩

/-- Structure `AIResponse` of `src/server/services/openai.ts`. -/
structure AIResponse where
  message : String
  shouldEndCall : Bool
  extractedData : Option ExtractedData := none
  responseTime : Nat := 0
deriving Repr, DecidableEq

/-- Structure `ConversationContext` of `src/server/services/openai.ts`. -/
structure ConversationContext where
  campaignPrompt : String
  conversationHistory : List ChatMsg
  contactName : Option String := none
  phoneNumber : String
deriving Repr, DecidableEq

/-- A durable `Contact` row (fields touched by the orchestration core). -/
structure Contact where
  name : Option String := none
  phone : String := ""
  email : Option String := none
  company : Option String := none
  notes : Option String := none
  whatsappNumber : Option String := none
deriving Repr, DecidableEq

/-- A partial contact update as passed to `storage.updateContact`:
`none` models a field that is `undefined`/absent from the update object
and must therefore be left untouched by the store. -/
structure ContactUpdate where
  name : Option String := none
  email : Option String := none
  company : Option String := none
  notes : Option String := none
  whatsappNumber : Option String := none
deriving Repr, DecidableEq

/-- Modelled from the spec: `storage.updateContact(id, partialFields)` of the
Persistence Facade (its implementation is not under `src/`); the spec (§6)
requires partial updates with additive-merge semantics: a field that is
absent (`undefined`) in the update leaves the stored value unchanged. -/
def applyContactUpdate (u : ContactUpdate) (c : Contact) : Contact :=
  { c with
    name := match u.name with | some v => some v | none => c.name
    email := match u.email with | some v => some v | none => c.email
    company := match u.company with | some v => some v | none => c.company
    notes := match u.notes with | some v => some v | none => c.notes
    whatsappNumber := match u.whatsappNumber with | some v => some v | none => c.whatsappNumber }

/-- The update object built during a turn (`callManager.ts` lines 122-134):
`updateData.whatsappNumber` / `updateData.email` are set only when the
extracted value is truthy; no other key is ever put in `updateData`. -/
def buildTurnUpdate (ed : ExtractedData) : ContactUpdate :=
  { whatsappNumber := if jsTruthy ed.whatsapp_number then ed.whatsapp_number else none
    email := if jsTruthy ed.email then ed.email else none }

/-- The update object built at finalization (`callManager.ts` lines 207-213):
each field is `extractedData.f || undefined`, i.e. absent when the extracted
value is falsy (`undefined` or `""`). -/
def endCallUpdate (ed : ExtractedData) : ContactUpdate :=
  { name := if jsTruthy ed.name then ed.name else none
    email := if jsTruthy ed.email then ed.email else none
    company := if jsTruthy ed.company then ed.company else none
    notes := if jsTruthy ed.notes then ed.notes else none
    whatsappNumber := if jsTruthy ed.whatsapp_number then ed.whatsapp_number else none }

/-- A durable `Call` row (the fields the orchestration core reads/writes). -/
structure StoredCall where
  id : String
  twilioCallSid : String
  campaignId : Option String := none
  contactId : Option String := none
  phoneNumber : String := ""
  status : String := "initiated"
  collectedData : Option ExtractedData := none
  whatsappSent : Bool := false
  duration : Option Nat := none
  conversationSummary : Option String := none
  successScore : Option Int := none
  aiResponseTime : Option Nat := none
deriving Repr, DecidableEq

/-- Modelled from the spec: the Persistence Facade (`storage`, not under
`src/`); rows for calls, contacts and call messages, plus the set of
existing campaign ids.  Partial updates follow §6: absent fields are left
unchanged. -/
structure Storage where
  calls : List StoredCall := []
  contacts : List (String × Contact) := []
  campaigns : List String := []
  messages : List (String × Role × String) := []
deriving Repr, DecidableEq

/-- Lookup `storage.getCallByTwilioSid`. -/
def findCallBySid (st : Storage) (sid : String) : Option StoredCall :=
  st.calls.find? (fun c => c.twilioCallSid == sid)

/-- Update `storage.updateCall(id, fields)`: rewrite the rows whose `id` matches. -/
def updateCallRecord (st : Storage) (id : String) (f : StoredCall → StoredCall) : Storage :=
  { st with calls := st.calls.map (fun c => if c.id == id then f c else c) }

/-- Update `storage.updateContact(id, partialFields)` applied to the stored rows. -/
def updateContactK (st : Storage) (cid : String) (u : ContactUpdate) : Storage :=
  { st with contacts :=
      st.contacts.map (fun p => if p.1 == cid then (p.1, applyContactUpdate u p.2) else p) }

/-- Structure `ActiveCall` of `callManager.ts` (a Registry entry). -/
structure ActiveCall where
  id : String
  twilioCallSid : String
  conversationContext : ConversationContext
  startTime : Nat
deriving Repr, DecidableEq

/-- Return values of the external collaborators reached during
finalization: the summary text and success score produced by the
generator, the clock, and the id the store assigns to a created contact. -/
structure Oracle where
  summaryText : String := "summary"
  score : Int := 50
  now : Nat := 0
  newContactId : String := "new-contact"
deriving Repr

/-- The whole mutable world of the call core: the in-memory Registry
(`activeCalls`), the durable store, and counters tracing the
externally visible effects the claims count. -/
structure SysState where
  activeCalls : KeyMap ActiveCall := fun _ => none
  storage : Storage := {}
  summaries : Nat := 0
  scoreComputations : Nat := 0
  completedStatusWrites : Nat := 0
  twilioEndCalls : Nat := 0
  whatsappSends : Nat := 0

/-- Contact persistence step of `endCall` (`callManager.ts` lines 204-231):
update the linked contact with the collected data, or create a fresh
contact when none is linked and a name was collected. -/
def finalizeContact (o : Oracle) (st : Storage) (call : StoredCall) : Storage :=
  match call.collectedData with
  | none => st
  | some ed =>
    if jsTruthy call.contactId then
      updateContactK st (call.contactId.getD "") (endCallUpdate ed)
    else if jsTruthy ed.name then
      let newContact : Contact :=
        { name := ed.name
          phone := call.phoneNumber
          email := if jsTruthy ed.email then ed.email else none
          company := if jsTruthy ed.company then ed.company else none
          notes := if jsTruthy ed.notes then ed.notes else none
          whatsappNumber := if jsTruthy ed.whatsapp_number then ed.whatsapp_number else none }
      let st1 := { st with contacts := st.contacts ++ [(o.newContactId, newContact)] }
      updateCallRecord st1 call.id (fun c => { c with contactId := some o.newContactId })
    else st

/-- Function `CallManager.endCall` (`callManager.ts` lines 175-243).  When the
session is present in the Registry: generate one conversation summary,
and if the durable call row exists, compute the success score (via the
scorer when the campaign exists, the constant `50` otherwise), write the
`completed` status with duration/summary/score, persist the collected
contact data, and remove the session from the Registry.  The final
`twilioService.endCall` is invoked unconditionally. -/
def endCall (o : Oracle) (s : SysState) (sid : String) : SysState :=
  let s' :=
    match s.activeCalls sid with
    | none => s
    | some ac =>
      let s1 : SysState := { s with summaries := s.summaries + 1 }
      let s2 : SysState :=
        match findCallBySid s1.storage sid with
        | none => s1
        | some call =>
          let duration := (o.now - ac.startTime) / 1000
          let campaignFound :=
            match call.campaignId with
            | some cid => s1.storage.campaigns.contains cid
            | none => false
          let s2a : SysState :=
            if campaignFound then
              { s1 with scoreComputations := s1.scoreComputations + 1 }
            else s1
          let successScore : Int := if campaignFound then o.score else 50
          let s2b : SysState :=
            { s2a with
              storage := updateCallRecord s2a.storage call.id (fun c =>
                { c with status := "completed", duration := some duration,
                         conversationSummary := some o.summaryText,
                         successScore := some successScore })
              completedStatusWrites := s2a.completedStatusWrites + 1 }
          { s2b with storage := finalizeContact o s2b.storage call }
      { s2 with activeCalls := mapDel s2.activeCalls sid }
  { s' with twilioEndCalls := s'.twilioEndCalls + 1 }

/-- The conversation context created at initiation
(`callManager.ts` lines 38-43). -/
def initialConversationContext (phoneNumber : String) (contactName : Option String) :
    ConversationContext :=
  { campaignPrompt := "Hi this is Aavika from LabsCheck, how are you doing today"
    conversationHistory := []
    contactName := contactName
    phoneNumber := phoneNumber }

/-- Function `CallManager.initiateCall` (`callManager.ts` lines 16-60).  `carrier`
is the outcome of `twilioService.initiateCall` (the placement
acknowledgement or the raised error); `contact` is the resolved contact
row.  Errors propagate to the caller (`throw error`), and the Registry is
written only after a successful placement. -/
def initiateCall (s : SysState) (phoneNumber campaignId : String)
    (contact : Option Contact) (carrier : Except String String) (startTime : Nat) :
    Except String String × SysState :=
  if s.storage.campaigns.contains campaignId then
    match carrier with
    | .error e => (.error e, s)
    | .ok sid =>
      let ac : ActiveCall :=
        { id := sid, twilioCallSid := sid
          conversationContext :=
            initialConversationContext phoneNumber
              (match contact with | some c => c.name | none => none)
          startTime := startTime }
      (.ok sid, { s with activeCalls := mapSet s.activeCalls sid ac })
  else (.error "Campaign not found", s)

/-- History update of one processed turn (`callManager.ts` lines 94-98):
push the user utterance and the assistant reply, in this order. -/
def pushTurn (c : ConversationContext) (userInput reply : String) : ConversationContext :=
  { c with conversationHistory :=
      c.conversationHistory ++ [⟨.user, userInput⟩, ⟨.assistant, reply⟩] }

/-- Expression `extractedData || {}` (`callManager.ts` lines 122 and 148). -/
def edOf (r : AIResponse) : ExtractedData :=
  r.extractedData.getD {}

/-- Predicate `hasCompleteContact` (`callManager.ts` lines 149-150). -/
def hasCompleteContact (ed : ExtractedData) : Bool :=
  ed.contact_complete == some "yes" || (jsTruthy ed.whatsapp_number && jsTruthy ed.email)

/-- The turn-termination predicate (`callManager.ts` line 153). -/
def shouldFinalizeTurn (r : AIResponse) : Bool :=
  r.shouldEndCall || hasCompleteContact (edOf r)
    || (edOf r).customer_interest == some "not_interested"

/-- The voice document a turn hands back to the carrier. -/
inductive TurnDoc where
  | techDifficulties
  | hangup
  | gather (message : String)
deriving Repr, DecidableEq

/-- Function `CallManager.handleUserInput` (`callManager.ts` lines 62-173).  `gen`
is the Response Generator (`openaiService.generateResponse`); a missing
session makes the source throw, which its own catch turns into the
technical-difficulties document.  On the happy path: append the turn to
the session history, persist both messages and the extracted data,
additively update the linked contact, dispatch the one-shot WhatsApp
notification, then evaluate the termination predicate — finalizing via
`endCall` with a hangup document, or continuing with a gather document. -/
def handleUserInput (o : Oracle) (gen : ConversationContext → String → AIResponse)
    (s : SysState) (sid userInput : String) : SysState × TurnDoc :=
  match s.activeCalls sid with
  | none => (s, .techDifficulties)
  | some ac =>
    let aiResponse := gen ac.conversationContext userInput
    let ac' := { ac with
      conversationContext := pushTurn ac.conversationContext userInput aiResponse.message }
    let s1 : SysState := { s with activeCalls := mapSet s.activeCalls sid ac' }
    let s2 : SysState :=
      match findCallBySid s1.storage sid with
      | none => s1
      | some call =>
        let ed := edOf aiResponse
        let st1 := { s1.storage with messages := s1.storage.messages ++
          [(call.id, .user, userInput), (call.id, .assistant, aiResponse.message)] }
        let st2 := updateCallRecord st1 call.id (fun c =>
          { c with aiResponseTime := some aiResponse.responseTime
                   collectedData := match aiResponse.extractedData with
                     | some e => some e
                     | none => c.collectedData })
        if jsTruthy call.contactId && (jsTruthy ed.whatsapp_number || jsTruthy ed.email) then
          let st3 := updateContactK st2 (call.contactId.getD "") (buildTurnUpdate ed)
          let s2b : SysState := { s1 with storage := st3 }
          if jsTruthy ed.whatsapp_number && !call.whatsappSent then
            { s2b with
              storage := updateCallRecord st3 call.id (fun c => { c with whatsappSent := true })
              whatsappSends := s2b.whatsappSends + 1 }
          else s2b
        else { s1 with storage := st2 }
    if shouldFinalizeTurn aiResponse then (endCall o s2 sid, .hangup)
    else (s2, .gather aiResponse.message)

/-- A carrier status event that forces finalization
(`callManager.ts` lines 281-284). -/
def isTerminalEvent (ev : String) : Bool :=
  ev == "completed" || ev == "failed" || ev == "busy" || ev == "no-answer"

/-- Function `CallManager.handleCallStatusUpdate` (`callManager.ts` lines 276-295):
look the call up by carrier sid; terminal events force `endCall` and then
write the final `completed`/`failed` status; an `answered` event writes
`active`; any other event is ignored. -/
def handleCallStatusUpdate (o : Oracle) (s : SysState) (sid status : String) : SysState :=
  match findCallBySid s.storage sid with
  | none => s
  | some call =>
    if isTerminalEvent status then
      let s1 := endCall o s sid
      { s1 with
        storage := updateCallRecord s1.storage call.id (fun c =>
          { c with status := if status == "completed" then "completed" else "failed" })
        completedStatusWrites :=
          if status == "completed" then s1.completedStatusWrites + 1
          else s1.completedStatusWrites }
    else if status == "answered" then
      { s with storage := updateCallRecord s.storage call.id (fun c =>
          { c with status := "active" }) }
    else s

/-- Fold `handleCallStatusUpdate` over a sequence of carrier events for
one call id, in delivery order. -/
def runStatusEvents (o : Oracle) (s : SysState) (sid : String) (evs : List String) : SysState :=
  evs.foldl (fun st ev => handleCallStatusUpdate o st sid ev) s

/-- The durable status of the call with the given carrier sid. -/
def statusOfSid (s : SysState) (sid : String) : Option String :=
  (findCallBySid s.storage sid).map (fun c => c.status)

/-- One turn of the session context: invoke the generator on the current
context and push the pair, exactly as `handleUserInput` does. -/
def turnCtx (gen : ConversationContext → String → AIResponse)
    (c : ConversationContext) (u : String) : ConversationContext :=
  pushTurn c u (gen c u).message

/-- The session context after a sequence of processed turns. -/
def ctxAfter (gen : ConversationContext → String → AIResponse)
    (c0 : ConversationContext) (us : List String) : ConversationContext :=
  us.foldl (turnCtx gen) c0

/-! ## Webhook routes (`src/unnamed/part_000`) -/

/-- Outcome of `POST /api/calls/:callId/process-speech`: re-prompt with a
gather document, hang up on explicit termination intent, or hand the
utterance to `callManager.processSpeechInput` (the only branch that
reaches the Response Generator). -/
inductive SpeechOutcome where
  | repromptGather
  | hangupIntent
  | processTurn (utterance : String)
deriving Repr, DecidableEq

/-- Utterance reconciliation of the turn route (lines 774-800): start from
the validated Twilio speech result; when it is blank and a recording URL
is present, substitute the Whisper transcription, keeping the blank text
when transcription raises (the route catches that error). -/
def finalSpeech (speech0 : String) (recordingUrl : Option String)
    (whisper : String → Except Unit String) : String :=
  if jsBlank speech0 then
    match recordingUrl with
    | some url =>
      match whisper url with
      | .ok t => t
      | .error _ => speech0
    | none => speech0
  else speech0

/-- Route `POST /api/calls/:callId/process-speech` (lines 769-853) after
utterance reconciliation: a blank utterance renders the re-prompt gather
document, explicit termination intent (`directSpeechService.shouldEndCall`,
passed in as `intentEnd`) renders a hangup document, and only otherwise is
the utterance processed through the generator. -/
def routeProcessSpeech (speech0 : String) (recordingUrl : Option String)
    (whisper : String → Except Unit String) (intentEnd : String → Bool) : SpeechOutcome :=
  let speechText := finalSpeech speech0 recordingUrl whisper
  if jsBlank speechText then .repromptGather
  else if intentEnd speechText then .hangupIntent
  else .processTurn speechText

/-- Response of the status webhook to the carrier. -/
structure HttpResponse where
  status : Nat
  body : String
  broadcastCallEnded : Bool := false
deriving Repr, DecidableEq

/-- Route `POST /api/calls/webhook/status` (lines 856-883): terminal carrier
statuses (`completed`/`failed`) with a present `callId` trigger forced
finalization (`callManager.completeCall`, whose raised error — if any —
is the `finalize` argument) and a `call_ended` broadcast; the handler's
catch logs a finalization error and responds `500 'Error'`, every other
path responds `200 'OK'`. -/
def statusWebhook (callId : Option String) (callStatus : String)
    (finalize : Except Unit Unit) : HttpResponse :=
  if jsTruthy callId && (callStatus == "completed" || callStatus == "failed") then
    match finalize with
    | .ok _ => { status := 200, body := "OK", broadcastCallEnded := true }
    | .error _ => { status := 500, body := "Error" }
  else { status := 200, body := "OK" }

/-! ## Response Generator and success scoring (`src/server/services/openai.ts`) -/

/-- The error object raised by the OpenAI client. -/
structure ApiError where
  status : Option Nat := none
  code : Option String := none
deriving Repr, DecidableEq

/-- Test `error.status === 429 || error.code === 'insufficient_quota'`
(`openai.ts` lines 175 and 263 and 294). -/
def ApiError.isQuota (e : ApiError) : Bool :=
  e.status == some 429 || e.code == some "insufficient_quota"

/-- Substring occurrence on character lists (JS `String.prototype.includes`). -/
def hasSubList : List Char → List Char → Bool
  | _, [] => true
  | [], _ :: _ => false
  | s :: t, pat => (pat.isPrefixOf (s :: t)) || hasSubList t pat

/-- JS `s.includes(pat)`. -/
def containsSub (s pat : String) : Bool :=
  hasSubList s.data pat.data

/-- JS `s.toLowerCase()` (ASCII case folding). -/
def jsToLower (s : String) : String :=
  String.mk (s.data.map Char.toLower)

/-- Leftmost run of ten consecutive decimal digits, as matched by the JS
regex `/\d{10}/` (`openai.ts` line 193). -/
def firstDigitRun10 : List Char → Option (List Char)
  | [] => none
  | c :: t =>
    let first10 := (c :: t).take 10
    if first10.length = 10 && first10.all Char.isDigit then some first10
    else firstDigitRun10 t

/-- JS `s.match(/\d{10}/)?.[0]`. -/
def tenDigitMatch (s : String) : Option String :=
  (firstDigitRun10 s.data).map (fun cs => String.mk cs)

/-- Maximal whitespace-separated runs of non-space characters, in order. -/
def nonspaceRuns (s : String) : List String :=
  (s.split Char.isWhitespace).filter (fun r => r ≠ "")

/-- Whether a non-space run is matched by `\S+@\S+\.\S+`: it contains an
`'@'` at offset at least 1 and a `'.'` at least two places further with at
least one character after it. -/
def emailRunOk (r : List Char) : Bool :=
  (List.range r.length).any (fun p =>
    decide (1 ≤ p) && (r.getD p ' ' == '@') &&
    ((List.range r.length).any (fun q =>
      decide (p + 2 ≤ q) && decide (q + 2 ≤ r.length) && (r.getD q ' ' == '.'))))

/-- JS `s.match(/\S+@\S+\.\S+/)?.[0]` (`openai.ts` line 201).  Because
`'@'` and `'.'` are themselves non-space, the whole match lies inside one
maximal non-space run; the leftmost match is the first run that can host
one, and the greedy trailing `\S+` extends it to the end of that run, so
the matched text is exactly that run. -/
def emailMatch (s : String) : Option String :=
  (nonspaceRuns s).find? (fun r => emailRunOk r.data)

/-- The deterministic keyword-matched fallback used when the generation
call fails with a quota error (`openai.ts` lines 178-223): branches on the
lowercased utterance, in source order. -/
def quotaFallback (userInput : String) (responseTime : Nat) : AIResponse :=
  let customerSaid := jsToLower userInput
  let base : AIResponse :=
    if containsSub customerSaid "fine" || containsSub customerSaid "good" ||
        containsSub customerSaid "theek" || containsSub customerSaid "accha" then
      { message := "Great! Can you share your WhatsApp number?"
        shouldEndCall := false
        extractedData := some { customer_interest := some "interested" }
        responseTime := responseTime }
    else if containsSub customerSaid "what" || containsSub customerSaid "why" ||
        containsSub customerSaid "kya" || containsSub customerSaid "kyon" then
      { message := "We want to share our lab test details with you"
        shouldEndCall := false
        extractedData := some { customer_interest := some "neutral" }
        responseTime := responseTime }
    else if (tenDigitMatch customerSaid).isSome then
      { message := "Perfect! Now can you share your email ID?"
        shouldEndCall := false
        extractedData := some { whatsapp_number := some ((tenDigitMatch customerSaid).getD "")
                                customer_interest := some "interested" }
        responseTime := responseTime }
    else if containsSub customerSaid "@" || containsSub customerSaid "email" ||
        containsSub customerSaid "gmail" then
      { message := "Thank you! We'll send you the details soon"
        shouldEndCall := true
        extractedData := some { email := some ((emailMatch userInput).getD "provided")
                                contact_complete := some "yes" }
        responseTime := responseTime }
    else if containsSub customerSaid "not interested" || containsSub customerSaid "no" ||
        containsSub customerSaid "nahi" then
      { message := "No problem. Have a good day!"
        shouldEndCall := true
        extractedData := some { customer_interest := some "not_interested" }
        responseTime := responseTime }
    else
      { message := "Can you share your WhatsApp number for lab details?"
        shouldEndCall := false
        extractedData := some { customer_interest := some "neutral" }
        responseTime := responseTime }
  let ed0 := base.extractedData.getD {}
  let ed1 := { ed0 with notes := some ("Customer said: \"" ++ userInput ++ "\"") }
  { base with extractedData := some ed1 }

/-- The fixed farewell returned for non-quota generation errors
(`openai.ts` lines 226-233). -/
def techFailureResponse (responseTime : Nat) : AIResponse :=
  { message := "Sorry sir, thoda technical issue hai. Main dubara call karunga. Dhanyawad!"
    shouldEndCall := true
    extractedData := some { notes := some "Technical error - Hindi farewell provided" }
    responseTime := responseTime }

/-- The reply the model produced, as parsed from its JSON content
(`JSON.parse(response.choices[0].message.content || '\x7b\x7d')`);
`none` fields model keys absent from that object. -/
structure ParsedReply where
  message : Option String := none
  shouldEndCall : Option Bool := none
  extractedData : Option ExtractedData := none
deriving Repr, DecidableEq

/-- Outcome of the chat completion request: the parsed reply, or the
raised client error. -/
inductive ChatOutcome where
  | success (parsed : ParsedReply)
  | failure (err : ApiError)
deriving Repr, DecidableEq

/-- Function `OpenAIService.generateResponse` (`openai.ts` lines 28-235).  The
network call itself is the `outcome` oracle (the context and utterance
only shape the prompt sent with it).  Every branch of the source returns
an `AIResponse` — the catch covers the whole body — so the embedding is a
total function: generation failures are never propagated. -/
def generateResponse (_ctx : ConversationContext) (userInput : String)
    (outcome : ChatOutcome) (responseTime : Nat) : AIResponse :=
  match outcome with
  | .success parsed =>
    { message := if jsTruthy parsed.message then parsed.message.getD ""
                 else "I'm sorry, could you repeat that?"
      shouldEndCall := parsed.shouldEndCall.getD false
      extractedData := some (parsed.extractedData.getD {})
      responseTime := responseTime }
  | .failure e =>
    if e.isQuota then quotaFallback userInput responseTime
    else techFailureResponse responseTime

/-- Hexadecimal digit (`[0-9a-fA-F]`). -/
def isHexDigitChar (c : Char) : Bool :=
  c.isDigit || (97 ≤ c.toNat && c.toNat ≤ 102) || (65 ≤ c.toNat && c.toNat ≤ 70)

/-- Numeric value of a hexadecimal digit. -/
def hexVal (c : Char) : Nat :=
  if c.isDigit then c.toNat - 48
  else if 97 ≤ c.toNat && c.toNat ≤ 102 then c.toNat - 87
  else if 65 ≤ c.toNat && c.toNat ≤ 70 then c.toNat - 55
  else 0

/-- JS `parseInt(s)` (no radix argument): skip leading whitespace, read an
optional sign, detect a `0x`/`0X` hexadecimal prefix, then take the
maximal digit prefix; `none` models the `NaN` returned when no digit is
found. -/
def jsParseInt (s : String) : Option Int :=
  let cs := s.data.dropWhile Char.isWhitespace
  let signed : Int × List Char :=
    match cs with
    | '-' :: t => (-1, t)
    | '+' :: t => (1, t)
    | t => (1, t)
  let based : Nat × List Char :=
    match signed.2 with
    | '0' :: c :: t => if c == 'x' || c == 'X' then (16, t) else (10, signed.2)
    | _ => (10, signed.2)
  let ds := based.2.takeWhile (fun c => if based.1 == 16 then isHexDigitChar c else c.isDigit)
  if ds.isEmpty then none
  else some (signed.1 * (ds.foldl (fun (a : Int) c => a * (based.1 : Int) + (hexVal c : Int)) 0))

/-- JS `Math.min` on two numbers, `none` modelling `NaN` (any `NaN`
operand makes the result `NaN`). -/
def jsMinNum (a b : Option Int) : Option Int :=
  match a, b with
  | some x, some y => some (min x y)
  | _, _ => none

/-- JS `Math.max` on two numbers, `none` modelling `NaN`. -/
def jsMaxNum (a b : Option Int) : Option Int :=
  match a, b with
  | some x, some y => some (max x y)
  | _, _ => none

/-- Outcome of the scoring chat completion: the reply content (possibly
`null`), or the raised client error. -/
inductive ScoreOutcome where
  | success (content : Option String)
  | failure (err : ApiError)
deriving Repr, DecidableEq

/-- Function `OpenAIService.calculateSuccessScore` (`openai.ts` lines 271-301):
`parseInt(content || "50")` clamped through
`Math.max(1, Math.min(100, score))`; quota errors yield 75, other errors
50.  The extracted data and objectives only shape the prompt, which is
the `outcome` oracle.  The result is a JS number which may be `NaN`
(modelled `none`). -/
def calculateSuccessScore (outcome : ScoreOutcome) : Option Int :=
  match outcome with
  | .success content =>
    let raw := match content with
      | some c => if c == "" then "50" else c
      | none => "50"
    jsMaxNum (some 1) (jsMinNum (some 100) (jsParseInt raw))
  | .failure e => if e.isQuota then some 75 else some 50

/-! ## Theorems -/

/-- Claim C7: contact merging is additive — a field absent (falsy) in the
extracted data is never overwritten, on the turn path
(`handleUserInput`, via `buildTurnUpdate`) as well as the finalization
path (`endCall`, via `endCallUpdate`): with an extraction carrying only a
`whatsapp_number`, the previously stored email survives both merges and
the WhatsApp number is added. -/
theorem contactMerge_additive (ed : ExtractedData) (c : Contact)
    (hwa : jsTruthy ed.whatsapp_number = true) (hem : jsTruthy ed.email = false) :
    (applyContactUpdate (buildTurnUpdate ed) c).email = c.email ∧
    (applyContactUpdate (buildTurnUpdate ed) c).whatsappNumber = ed.whatsapp_number ∧
    (applyContactUpdate (buildTurnUpdate ed) c).name = c.name ∧
    (applyContactUpdate (buildTurnUpdate ed) c).company = c.company ∧
    (applyContactUpdate (buildTurnUpdate ed) c).notes = c.notes ∧
    (applyContactUpdate (buildTurnUpdate ed) c).phone = c.phone ∧
    (applyContactUpdate (endCallUpdate ed) c).email = c.email ∧
    (applyContactUpdate (endCallUpdate ed) c).whatsappNumber = ed.whatsapp_number ∧
    (applyContactUpdate (endCallUpdate ed) c).phone = c.phone ∧
    (jsTruthy ed.name = false → (applyContactUpdate (endCallUpdate ed) c).name = c.name) ∧
    (jsTruthy ed.company = false → (applyContactUpdate (endCallUpdate ed) c).company = c.company) ∧
    (jsTruthy ed.notes = false → (applyContactUpdate (endCallUpdate ed) c).notes = c.notes) := by
  have hw : ∃ w, ed.whatsapp_number = some w := by
    cases h : ed.whatsapp_number with
    | none => rw [h] at hwa; simp [jsTruthy] at hwa
    | some w => exact ⟨w, rfl⟩
  obtain ⟨w, hw⟩ := hw
  rw [hw] at hwa
  refine ⟨?_, ?_, ?_, ?_, ?_, ?_, ?_, ?_, ?_, ?_, ?_, ?_⟩ <;>
    (intros; simp [applyContactUpdate, buildTurnUpdate, endCallUpdate, hwa, hem, hw, *])

/-- Extraction with only a WhatsApp number, for claim C7's example. -/
def edC7 : ExtractedData := { whatsapp_number := some "9876543210" }

/-- A contact with a previously captured email, for claim C7's example. -/
def cC7 : Contact := { phone := "+911234", email := some "a@x.com" }

/-- Witness for claim C7 at the spec's concrete example. -/
theorem contactMerge_additive_witness :
    (applyContactUpdate (buildTurnUpdate edC7) cC7).email = some "a@x.com" ∧
    (applyContactUpdate (buildTurnUpdate edC7) cC7).whatsappNumber = some "9876543210" ∧
    (applyContactUpdate (endCallUpdate edC7) cC7).email = some "a@x.com" ∧
    (applyContactUpdate (endCallUpdate edC7) cC7).whatsappNumber = some "9876543210" := by
  have h := contactMerge_additive edC7 cC7 (by decide) (by decide)
  exact ⟨h.1, h.2.1, h.2.2.2.2.2.2.1, h.2.2.2.2.2.2.2.1⟩

/-- Claim C8: when the carrier placement step fails, `initiateCall`
propagates exactly that error to its caller and the whole state — the
Registry included — is unchanged (the Registry write only happens after a
successful placement). -/
theorem initiateCall_placementFailure (s : SysState) (phone campaignId : String)
    (contact : Option Contact) (e : String) (t : Nat)
    (hcamp : s.storage.campaigns.contains campaignId = true) :
    initiateCall s phone campaignId contact (Except.error e) t = (Except.error e, s) := by
  unfold initiateCall
  rw [if_pos hcamp]

/-- A state holding one campaign, for claim C8's witness. -/
def sC8 : SysState := { storage := { campaigns := ["cg"] } }

/-- Witness for claim C8 at a concrete failing placement. -/
theorem initiateCall_placementFailure_witness :
    initiateCall sC8 "+911234" "cg" none (Except.error "Twilio down") 0 =
      (Except.error "Twilio down", sC8) :=
  initiateCall_placementFailure sC8 "+911234" "cg" none "Twilio down" 0 (by decide)

/-- Counterexample to claim C3 as stated: when internal finalization
raises, the status webhook responds `500 'Error'`, not a success status. -/
theorem statusWebhook_failure_counterexample :
    (statusWebhook (some "call-1") "completed" (Except.error ())).status = 500 ∧
    ¬ (statusWebhook (some "call-1") "completed" (Except.error ())).status = 200 := by
  decide

/-- Claim C3, amended: the status endpoint always answers the carrier (it
never re-raises an internal error): `200 'OK'` whenever finalization does
not raise — in particular on every non-terminal status and missing call
id — and `500 'Error'` exactly when a terminal status triggered
finalization and finalization raised. -/
theorem statusWebhook_amended (callId : Option String) (st : String)
    (fin : Except Unit Unit) :
    ((statusWebhook callId st fin).status = 200 ∨
      ((statusWebhook callId st fin).status = 500 ∧
       (statusWebhook callId st fin).body = "Error")) ∧
    (fin = Except.ok () → (statusWebhook callId st fin).status = 200) ∧
    ((statusWebhook callId st fin).status = 500 →
      jsTruthy callId = true ∧ (st == "completed" || st == "failed") = true ∧
      fin = Except.error ()) := by
  cases fin <;> (unfold statusWebhook; split <;> simp_all)

/-- Witness for claim C3 (amended) at a concrete successful finalization. -/
theorem statusWebhook_amended_witness :
    (statusWebhook (some "call-1") "completed" (Except.ok ())).status = 200 :=
  (statusWebhook_amended (some "call-1") "completed" (Except.ok ())).2.1 rfl

/-- Claim C5: a turn webhook whose reconciled utterance is blank (empty or
whitespace-only — no usable Twilio speech and no usable recording
transcription) renders the re-prompt gather document and never reaches
the branch that hands the utterance to the generator
(`callManager.processSpeechInput`). -/
theorem emptyUtterance_reprompts (speech0 : String) (recordingUrl : Option String)
    (whisper : String → Except Unit String) (intentEnd : String → Bool)
    (hblank : jsBlank (finalSpeech speech0 recordingUrl whisper) = true) :
    routeProcessSpeech speech0 recordingUrl whisper intentEnd = SpeechOutcome.repromptGather ∧
    ∀ u, routeProcessSpeech speech0 recordingUrl whisper intentEnd ≠
      SpeechOutcome.processTurn u := by
  have h : routeProcessSpeech speech0 recordingUrl whisper intentEnd =
      SpeechOutcome.repromptGather := by
    simp [routeProcessSpeech, hblank]
  exact ⟨h, fun u hu => by rw [h] at hu; cases hu⟩

/-- Witness for claim C5 at the concrete empty reconciliation. -/
theorem emptyUtterance_reprompts_witness :
    routeProcessSpeech "" none (fun _ => Except.error ()) (fun _ => false) =
      SpeechOutcome.repromptGather :=
  (emptyUtterance_reprompts "" none (fun _ => Except.error ()) (fun _ => false)
    (by decide)).1

/-- Claim C10 (code bug): `calculateSuccessScore` is meant to clamp into
`[1, 100]`, but `parseInt` of a non-numeric model reply is `NaN` and
`Math.max(1, Math.min(100, NaN))` is `NaN` (modelled `none`), which lies
outside `[1, 100]`; the error branches do return 75 and 50. -/
theorem calculateSuccessScore_nonNumeric_NaN :
    calculateSuccessScore (ScoreOutcome.success (some "unknown")) = none ∧
    calculateSuccessScore (ScoreOutcome.success (some " ")) = none ∧
    calculateSuccessScore (ScoreOutcome.success (some "85")) = some 85 ∧
    calculateSuccessScore (ScoreOutcome.success (some "150")) = some 100 ∧
    calculateSuccessScore (ScoreOutcome.success none) = some 50 ∧
    calculateSuccessScore (ScoreOutcome.failure { status := some 429 }) = some 75 ∧
    calculateSuccessScore (ScoreOutcome.failure {}) = some 50 := by
  decide

/-- Every quota-fallback reply carries a non-empty message. -/
theorem quotaFallback_message_nonempty (input : String) (rt : Nat) :
    (quotaFallback input rt).message ≠ "" := by
  simp only [quotaFallback]
  split_ifs <;> simp

/-- Claim C9: a failed generation call is never propagated —
`generateResponse` always returns a (non-empty) fallback reply; on quota
errors the reply is exactly the deterministic keyword fallback, a
function of the utterance alone (any two contexts give the same result),
and on other errors it is the fixed graceful farewell that concludes the
call. -/
theorem generateResponse_neverPropagates (c c' : ConversationContext) (input : String)
    (e : ApiError) (rt : Nat) :
    generateResponse c input (ChatOutcome.failure e) rt =
      generateResponse c' input (ChatOutcome.failure e) rt ∧
    (generateResponse c input (ChatOutcome.failure e) rt).message ≠ "" ∧
    (e.isQuota = true →
      generateResponse c input (ChatOutcome.failure e) rt = quotaFallback input rt) ∧
    (e.isQuota = false →
      generateResponse c input (ChatOutcome.failure e) rt = techFailureResponse rt ∧
      (generateResponse c input (ChatOutcome.failure e) rt).shouldEndCall = true) := by
  refine ⟨rfl, ?_, ?_, ?_⟩
  · by_cases hq : e.isQuota = true
    · simpa [generateResponse, hq] using quotaFallback_message_nonempty input rt
    · simp only [Bool.not_eq_true] at hq
      simp [generateResponse, hq, techFailureResponse]
  · intro hq; simp [generateResponse, hq]
  · intro hq; refine ⟨by simp [generateResponse, hq], by simp [generateResponse, hq, techFailureResponse]⟩

/-- Witness for claim C9: on a quota failure, the "fine" keyword drives
the deterministic WhatsApp-ask fallback. -/
theorem generateResponse_neverPropagates_witness :
    (generateResponse (initialConversationContext "+911234" none) "I am fine"
      (ChatOutcome.failure { status := some 429 }) 0).message =
      "Great! Can you share your WhatsApp number?" := by
  have h := generateResponse_neverPropagates (initialConversationContext "+911234" none)
    (initialConversationContext "+911234" none) "I am fine" { status := some 429 } 0
  rw [h.2.2.1 (by decide)]
  decide

/-- After `endCall`, the session is absent from the Registry, whether or
not it was present before (present sessions are deleted, absent ones stay
absent). -/
theorem endCall_registryAbsent (o : Oracle) (s : SysState) (sid : String) :
    (endCall o s sid).activeCalls sid = none := by
  unfold endCall
  cases h : s.activeCalls sid with
  | none => simp [h]
  | some ac => simp [h, mapDel]

/-- Claim C2: the turn-termination predicate is a disjunction — any one of
`shouldEndCall`, explicit not-interested termination intent, or both a
`whatsapp_number` and an `email` in the extracted data suffices to make
the processed turn finalize the call: `handleUserInput` returns the
hangup document and the session is gone from the Registry. -/
theorem turnTermination_disjunction
    (o : Oracle) (gen : ConversationContext → String → AIResponse)
    (s : SysState) (sid u : String) (ac : ActiveCall)
    (hac : s.activeCalls sid = some ac)
    (hdisj : (gen ac.conversationContext u).shouldEndCall = true ∨
      (edOf (gen ac.conversationContext u)).customer_interest = some "not_interested" ∨
      (jsTruthy (edOf (gen ac.conversationContext u)).whatsapp_number = true ∧
       jsTruthy (edOf (gen ac.conversationContext u)).email = true)) :
    (handleUserInput o gen s sid u).2 = TurnDoc.hangup ∧
    (handleUserInput o gen s sid u).1.activeCalls sid = none := by
  have hfin : shouldFinalizeTurn (gen ac.conversationContext u) = true := by
    rcases hdisj with h | h | ⟨h1, h2⟩ <;>
      simp [shouldFinalizeTurn, hasCompleteContact, *]
  constructor
  · simp [handleUserInput, hac, hfin]
  · simp [handleUserInput, hac, hfin, endCall_registryAbsent]

/-- A reply whose generator did not ask to end the call but whose
extraction carries both contact channels, for claim C2's witness. -/
def genC2 : ConversationContext → String → AIResponse := fun _ _ =>
  { message := "Noted, thank you"
    shouldEndCall := false
    extractedData := some { whatsapp_number := some "9876543210", email := some "a@b.co" } }

/-- Session and state for claim C2's witness. -/
def acC2 : ActiveCall :=
  { id := "CA2", twilioCallSid := "CA2"
    conversationContext := initialConversationContext "+911234" none
    startTime := 0 }

/-- Registry state for claim C2's witness. -/
def sC2 : SysState :=
  { activeCalls := fun x => if x = "CA2" then some acC2 else none }

/-- Witness for claim C2: `shouldEndCall=false` with both channels
collected still finalizes the turn. -/
theorem turnTermination_disjunction_witness :
    (handleUserInput {} genC2 sC2 "CA2" "my details").2 = TurnDoc.hangup ∧
    (handleUserInput {} genC2 sC2 "CA2" "my details").1.activeCalls "CA2" = none :=
  turnTermination_disjunction {} genC2 sC2 "CA2" "my details" acC2 (by decide)
    (Or.inr (Or.inr ⟨by decide, by decide⟩))

/-- Splitting a turn sequence splits the context fold. -/
theorem ctxAfter_append (gen : ConversationContext → String → AIResponse)
    (c0 : ConversationContext) (us vs : List String) :
    ctxAfter gen c0 (us ++ vs) = ctxAfter gen (ctxAfter gen c0 us) vs := by
  simp [ctxAfter, List.foldl_append]

/-- Each processed turn adds exactly two history entries. -/
theorem ctxAfter_len (gen : ConversationContext → String → AIResponse)
    (c0 : ConversationContext) (us : List String) :
    (ctxAfter gen c0 us).conversationHistory.length =
      c0.conversationHistory.length + 2 * us.length := by
  induction us generalizing c0 with
  | nil => simp [ctxAfter]
  | cons u t ih =>
    rw [show ctxAfter gen c0 (u :: t) = ctxAfter gen (turnCtx gen c0 u) t from rfl, ih]
    simp [turnCtx, pushTurn]
    omega

/-- The turn loop only ever appends to the history. -/
theorem ctxAfter_extends (gen : ConversationContext → String → AIResponse)
    (c0 : ConversationContext) (vs : List String) :
    ∃ t, (ctxAfter gen c0 vs).conversationHistory = c0.conversationHistory ++ t := by
  induction vs generalizing c0 with
  | nil => exact ⟨[], by simp [ctxAfter]⟩
  | cons v t ih =>
    obtain ⟨tl, htl⟩ := ih (turnCtx gen c0 v)
    refine ⟨⟨Role.user, v⟩ :: ⟨Role.assistant, (gen c0 v).message⟩ :: tl, ?_⟩
    rw [show ctxAfter gen c0 (v :: t) = ctxAfter gen (turnCtx gen c0 v) t from rfl, htl]
    simp [turnCtx, pushTurn]

/-- Claim C6: starting from the empty history created at initiation, the
conversation history has even length `2·n` after `n` completed turns;
each further turn appends exactly one user entry followed by one
assistant entry, in delivery order; and processing more turns only ever
extends the history (append-only, never removed or reordered). -/
theorem conversationHistory_evenPairs (gen : ConversationContext → String → AIResponse)
    (phone : String) (cn : Option String) (us vs : List String) (u : String) :
    (ctxAfter gen (initialConversationContext phone cn) us).conversationHistory.length =
      2 * us.length ∧
    Even (ctxAfter gen (initialConversationContext phone cn) us).conversationHistory.length ∧
    (ctxAfter gen (initialConversationContext phone cn) (us ++ [u])).conversationHistory =
      (ctxAfter gen (initialConversationContext phone cn) us).conversationHistory ++
        [⟨Role.user, u⟩,
         ⟨Role.assistant,
          (gen (ctxAfter gen (initialConversationContext phone cn) us) u).message⟩] ∧
    ∃ t, (ctxAfter gen (initialConversationContext phone cn) (us ++ vs)).conversationHistory =
      (ctxAfter gen (initialConversationContext phone cn) us).conversationHistory ++ t := by
  refine ⟨?_, ?_, ?_, ?_⟩
  · rw [ctxAfter_len]; simp [initialConversationContext]
  · rw [ctxAfter_len]; simp [initialConversationContext]
  · rw [ctxAfter_append]; simp [ctxAfter, turnCtx, pushTurn]
  · rw [ctxAfter_append]; exact ctxAfter_extends gen _ vs

/-- Running `endCall` on an absent session only reaches the carrier hang-up call:
no summary, no score, no status write, no registry or storage change. -/
theorem endCall_noSession (o : Oracle) (s : SysState) (sid : String)
    (h : s.activeCalls sid = none) :
    endCall o s sid = { s with twilioEndCalls := s.twilioEndCalls + 1 } := by
  simp [endCall, h]

/-- Claim C1: finalization is idempotent — with the session registered and
the call row and campaign present, two consecutive `endCall` invocations
produce exactly one conversation summary, one success-score computation
and one `completed` status write; the session is absent from the Registry
after either invocation, and the second invocation changes neither the
store, the Registry, nor any of those effect counts (only the
unconditional carrier hang-up request is repeated). -/
theorem endCall_idempotent
    (o : Oracle) (s : SysState) (sid : String) (ac : ActiveCall)
    (call : StoredCall) (cid : String)
    (hac : s.activeCalls sid = some ac)
    (hcall : findCallBySid s.storage sid = some call)
    (hcid : call.campaignId = some cid)
    (hcamp : s.storage.campaigns.contains cid = true) :
    (endCall o s sid).summaries = s.summaries + 1 ∧
    (endCall o s sid).scoreComputations = s.scoreComputations + 1 ∧
    (endCall o s sid).completedStatusWrites = s.completedStatusWrites + 1 ∧
    (endCall o s sid).activeCalls sid = none ∧
    (endCall o (endCall o s sid) sid).summaries = s.summaries + 1 ∧
    (endCall o (endCall o s sid) sid).scoreComputations = s.scoreComputations + 1 ∧
    (endCall o (endCall o s sid) sid).completedStatusWrites = s.completedStatusWrites + 1 ∧
    (endCall o (endCall o s sid) sid).activeCalls sid = none ∧
    (endCall o (endCall o s sid) sid).storage = (endCall o s sid).storage ∧
    (endCall o (endCall o s sid) sid).activeCalls = (endCall o s sid).activeCalls := by
  have hmem : cid ∈ s.storage.campaigns := by simpa using hcamp
  have hfirst : (endCall o s sid).summaries = s.summaries + 1 ∧
      (endCall o s sid).scoreComputations = s.scoreComputations + 1 ∧
      (endCall o s sid).completedStatusWrites = s.completedStatusWrites + 1 := by
    refine ⟨?_, ?_, ?_⟩ <;> simp [endCall, hac, hcall, hcid, hcamp, hmem]
  have habs : (endCall o s sid).activeCalls sid = none := endCall_registryAbsent o s sid
  have hsecond := endCall_noSession o (endCall o s sid) sid habs
  refine ⟨hfirst.1, hfirst.2.1, hfirst.2.2, habs, ?_, ?_, ?_, ?_, ?_, ?_⟩ <;>
    rw [hsecond] <;> simp [hfirst.1, hfirst.2.1, hfirst.2.2, habs]

/-- The registered session for claim C1's witness. -/
def acC1 : ActiveCall :=
  { id := "CA1", twilioCallSid := "CA1"
    conversationContext := initialConversationContext "+911234" none
    startTime := 0 }

/-- The durable call row for claim C1's witness. -/
def callC1 : StoredCall :=
  { id := "db1", twilioCallSid := "CA1", campaignId := some "cg"
    contactId := some "ct", phoneNumber := "+911234"
    collectedData := some { email := some "a@x.com" } }

/-- State with one live session backed by one call row and campaign, for
claim C1's witness. -/
def sC1 : SysState :=
  { activeCalls := fun x => if x = "CA1" then some acC1 else none
    storage := { calls := [callC1], contacts := [("ct", { phone := "+911234" })]
                 campaigns := ["cg"] } }

/-- Witness for claim C1 at a concrete live session. -/
theorem endCall_idempotent_witness :
    (endCall {} sC1 "CA1").summaries = 1 ∧
    (endCall {} (endCall {} sC1 "CA1") "CA1").summaries = 1 ∧
    (endCall {} (endCall {} sC1 "CA1") "CA1").scoreComputations = 1 ∧
    (endCall {} (endCall {} sC1 "CA1") "CA1").completedStatusWrites = 1 ∧
    (endCall {} (endCall {} sC1 "CA1") "CA1").activeCalls "CA1" = none := by
  have h := endCall_idempotent {} sC1 "CA1" acC1 callC1 "cg"
    (by decide) (by decide) (by decide) (by decide)
  exact ⟨by rw [h.1]; decide, by rw [h.2.2.2.2.1]; decide, by rw [h.2.2.2.2.2.1]; decide,
         by rw [h.2.2.2.2.2.2.1]; decide, h.2.2.2.2.2.2.2.1⟩

/-! ## Status forward-only analysis (claim C4) -/

/-- A durable status that is terminal for a Call row. -/
def isTerminalStatus (st : String) : Bool :=
  st == "completed" || st == "failed"

/-- Position of a status along the lifecycle chain
`initiated → active → completed|failed` (unknown strings rank lowest). -/
def statusRank (st : String) : Nat :=
  if st == "active" then 1 else if isTerminalStatus st then 2 else 0

/-- Rank of an optional stored status. -/
def rankOpt (x : Option String) : Nat :=
  statusRank (x.getD "")

/-- No `answered` event is delivered after a terminal carrier event. -/
def noLateAnswered : List String → Prop
  | [] => True
  | e :: rest => (isTerminalEvent e = true → ∀ x ∈ rest, x ≠ "answered") ∧ noLateAnswered rest

/-- The store is coherent for a carrier sid: exactly one call row carries
that sid, and its primary id is carried by no row with another sid. -/
def WFst (st : Storage) (sid : String) (c : StoredCall) : Prop :=
  st.calls.filter (fun d => d.twilioCallSid == sid) = [c] ∧
  ∀ d ∈ st.calls, d.id = c.id → d.twilioCallSid = sid

/-- Helper: `find?` returns the head of the filtered list. -/
theorem find?_eq_head?_filter {α : Type} (p : α → Bool) (l : List α) :
    l.find? p = (l.filter p).head? := by
  induction l with
  | nil => rfl
  | cons a t ih =>
    by_cases h : p a = true
    · rw [List.find?_cons_of_pos _ h, List.filter_cons_of_pos h]
      rfl
    · rw [List.find?_cons_of_neg _ h, List.filter_cons_of_neg h, ih]

/-- Under coherence, the sid lookup returns the unique row. -/
theorem findCallBySid_of_WFst (st : Storage) (sid : String) (c : StoredCall)
    (h : WFst st sid c) : findCallBySid st sid = some c := by
  unfold findCallBySid
  rw [find?_eq_head?_filter, h.1]
  rfl

/-- Under coherence, the observed status is the unique row's status. -/
theorem statusOfSid_of_WFst (s : SysState) (sid : String) (c : StoredCall)
    (h : WFst s.storage sid c) : statusOfSid s sid = some c.status := by
  simp [statusOfSid, findCallBySid_of_WFst _ _ _ h]

/-- Helper: `filter` commutes with a `map` that does not move elements across the
predicate. -/
theorem filter_map_pred_inv {α : Type} (g : α → α) (p : α → Bool)
    (hp : ∀ x, p (g x) = p x) (l : List α) :
    (l.map g).filter p = (l.filter p).map g := by
  induction l with
  | nil => rfl
  | cons a t ih => by_cases h : p a <;> simp [List.filter_cons, hp, h, ih]

/-- An update keyed by the coherent row's id, with a field writer touching
neither `id` nor `twilioCallSid`, keeps the store coherent and rewrites
exactly that row. -/
theorem WFst_updateCallRecord (st : Storage) (sid : String) (c : StoredCall)
    (h : WFst st sid c) (f : StoredCall → StoredCall)
    (hfs : ∀ x, (f x).twilioCallSid = x.twilioCallSid)
    (hfi : ∀ x, (f x).id = x.id) :
    WFst (updateCallRecord st c.id f) sid (f c) := by
  have hg : ∀ x, (if x.id == c.id then f x else x).twilioCallSid = x.twilioCallSid := by
    intro x; by_cases hx : x.id == c.id <;> simp [hx, hfs]
  have hgid : ∀ x, (if x.id == c.id then f x else x).id = x.id := by
    intro x; by_cases hx : x.id == c.id <;> simp [hx, hfi]
  constructor
  · have := filter_map_pred_inv (fun d => if d.id == c.id then f d else d)
      (fun d => d.twilioCallSid == sid) (fun x => by simp only [hg]) st.calls
    simp only [updateCallRecord] at *
    rw [this, h.1]
    simp
  · intro d hd hdid
    simp only [updateCallRecord, List.mem_map] at hd
    obtain ⟨d₀, hd₀, rfl⟩ := hd
    have hid0 : d₀.id = c.id := by
      rw [hgid d₀] at hdid
      rw [hdid, hfi c]
    have := h.2 d₀ hd₀ hid0
    rw [hg d₀]
    exact this

/-- The contact-persistence step of finalization keeps the store coherent
and never changes the row's id. -/
theorem WFst_finalizeContact (o : Oracle) (st : Storage) (sid : String)
    (c : StoredCall) (call : StoredCall) (h : WFst st sid c) (hid : call.id = c.id) :
    ∃ c', WFst (finalizeContact o st call) sid c' ∧ c'.id = c.id := by
  unfold finalizeContact
  cases hcd : call.collectedData with
  | none => exact ⟨c, h, rfl⟩
  | some ed =>
    by_cases h1 : jsTruthy call.contactId = true
    · simp only [h1, if_true]
      exact ⟨c, h, rfl⟩
    · simp only [Bool.not_eq_true] at h1
      simp only [h1, Bool.false_eq_true, if_false]
      by_cases h2 : jsTruthy ed.name = true
      · simp only [h2, if_true]
        have hst1 : WFst { st with contacts := st.contacts ++ [(o.newContactId,
            { name := ed.name, phone := call.phoneNumber
              email := if jsTruthy ed.email then ed.email else none
              company := if jsTruthy ed.company then ed.company else none
              notes := if jsTruthy ed.notes then ed.notes else none
              whatsappNumber :=
                if jsTruthy ed.whatsapp_number then ed.whatsapp_number else none })] }
            sid c := h
        have := WFst_updateCallRecord _ sid c hst1
          (fun d => { d with contactId := some o.newContactId })
          (fun x => rfl) (fun x => rfl)
        rw [← hid] at this
        exact ⟨_, this, rfl⟩
      · simp only [h2, Bool.false_eq_true, if_false]
        exact ⟨c, h, rfl⟩

/-- Lemma: `endCall` keeps the store coherent for the sid and never changes the
row's primary id (whatever it does to status and contact linkage). -/
theorem endCall_storage_WFst (o : Oracle) (s : SysState) (sid : String)
    (c : StoredCall) (h : WFst s.storage sid c) :
    ∃ c', WFst (endCall o s sid).storage sid c' ∧ c'.id = c.id := by
  have hfind : findCallBySid s.storage sid = some c := findCallBySid_of_WFst _ _ _ h
  cases hac : s.activeCalls sid with
  | none =>
    rw [endCall_noSession o s sid hac]
    exact ⟨c, h, rfl⟩
  | some ac =>
    have hstor : (endCall o s sid).storage =
        finalizeContact o (updateCallRecord s.storage c.id (fun d =>
          { d with
            status := "completed"
            duration := some ((o.now - ac.startTime) / 1000)
            conversationSummary := some o.summaryText
            successScore := some (if (match c.campaignId with
              | some cid => s.storage.campaigns.contains cid
              | none => false) = true then o.score else 50) })) c := by
      simp [endCall, hac, hfind, apply_ite SysState.storage]
    rw [hstor]
    have hupd := WFst_updateCallRecord s.storage sid c h
      (fun d => { d with
        status := "completed", duration := some ((o.now - ac.startTime) / 1000)
        conversationSummary := some o.summaryText
        successScore := some (if (match c.campaignId with
          | some cid => s.storage.campaigns.contains cid
          | none => false) = true then o.score else 50) })
      (fun x => rfl) (fun x => rfl)
    obtain ⟨c', h', hid'⟩ := WFst_finalizeContact o _ sid _ c hupd rfl
    exact ⟨c', h', hid'⟩

/-- A terminal carrier event forces finalization and then writes the
final terminal status onto the coherent row. -/
theorem statusUpdate_terminal (o : Oracle) (s : SysState) (sid : String)
    (c : StoredCall) (h : WFst s.storage sid c) (ev : String)
    (hev : isTerminalEvent ev = true) :
    ∃ c', WFst (handleCallStatusUpdate o s sid ev).storage sid c' ∧
      c'.status = (if ev == "completed" then "completed" else "failed") := by
  have hfind : findCallBySid s.storage sid = some c := findCallBySid_of_WFst _ _ _ h
  obtain ⟨c₁, h₁, hid₁⟩ := endCall_storage_WFst o s sid c h
  have hstor : (handleCallStatusUpdate o s sid ev).storage =
      updateCallRecord (endCall o s sid).storage c.id (fun d =>
        { d with status := if ev == "completed" then "completed" else "failed" }) := by
    simp [handleCallStatusUpdate, hfind, hev, apply_ite SysState.storage]
  rw [hstor, ← hid₁]
  exact ⟨_, WFst_updateCallRecord _ sid c₁ h₁ _ (fun x => rfl) (fun x => rfl), rfl⟩

/-- An `answered` event writes `active` onto the coherent row. -/
theorem statusUpdate_answered (o : Oracle) (s : SysState) (sid : String)
    (c : StoredCall) (h : WFst s.storage sid c) :
    ∃ c', WFst (handleCallStatusUpdate o s sid "answered").storage sid c' ∧
      c'.status = "active" := by
  have hfind : findCallBySid s.storage sid = some c := findCallBySid_of_WFst _ _ _ h
  have hstor : (handleCallStatusUpdate o s sid "answered").storage =
      updateCallRecord s.storage c.id (fun d => { d with status := "active" }) := by
    simp [handleCallStatusUpdate, hfind, isTerminalEvent]
  rw [hstor]
  exact ⟨_, WFst_updateCallRecord _ sid c h _ (fun x => rfl) (fun x => rfl), rfl⟩

/-- Any other carrier event leaves the whole state untouched. -/
theorem statusUpdate_other (o : Oracle) (s : SysState) (sid : String) (ev : String)
    (hev : isTerminalEvent ev = false) (hans : ev ≠ "answered") :
    handleCallStatusUpdate o s sid ev = s := by
  unfold handleCallStatusUpdate
  cases hf : findCallBySid s.storage sid with
  | none => rfl
  | some call => simp [hev, hans]

/-- Unfolding one event of the status fold. -/
theorem runStatusEvents_cons (o : Oracle) (s : SysState) (sid e : String)
    (evs : List String) :
    runStatusEvents o s sid (e :: evs) =
      runStatusEvents o (handleCallStatusUpdate o s sid e) sid evs := rfl

/-- Splitting the status fold over an append. -/
theorem runStatusEvents_append (o : Oracle) (s : SysState) (sid : String)
    (pre post : List String) :
    runStatusEvents o s sid (pre ++ post) =
      runStatusEvents o (runStatusEvents o s sid pre) sid post := by
  simp [runStatusEvents, List.foldl_append]

/-- Every status ranks at most 2. -/
theorem statusRank_le_two (st : String) : statusRank st ≤ 2 := by
  unfold statusRank
  split_ifs <;> omega

/-- Terminal statuses rank exactly 2. -/
theorem statusRank_terminal (st : String) (h : isTerminalStatus st = true) :
    statusRank st = 2 := by
  have h' : st = "completed" ∨ st = "failed" := by
    simpa [isTerminalStatus] using h
  rcases h' with h' | h' <;> subst h' <;> decide

/-- Non-terminal statuses rank at most 1. -/
theorem statusRank_nonterminal (st : String) (h : isTerminalStatus st = false) :
    statusRank st ≤ 1 := by
  unfold statusRank
  split_ifs with h1 h2
  · omega
  · rw [h] at h2; cases h2
  · omega

/-- Core forward-only induction: folding any event sequence over a
coherent state — provided no `answered` event is delivered once the row
is terminal — keeps the store coherent, never decreases the lifecycle
rank, preserves terminality, and reaches a terminal status only from a
terminal start or a terminal event. -/
theorem runStatusEvents_forward (o : Oracle) (sid : String) :
    ∀ (evs : List String) (s : SysState) (c : StoredCall),
      WFst s.storage sid c →
      (isTerminalStatus c.status = true → ∀ x ∈ evs, x ≠ "answered") →
      noLateAnswered evs →
      ∃ c', WFst (runStatusEvents o s sid evs).storage sid c' ∧
        statusRank c.status ≤ statusRank c'.status ∧
        (isTerminalStatus c.status = true → isTerminalStatus c'.status = true) ∧
        (isTerminalStatus c'.status = true →
          isTerminalStatus c.status = true ∨ ∃ x ∈ evs, isTerminalEvent x = true) := by
  intro evs
  induction evs with
  | nil =>
    intro s c h _ _
    exact ⟨c, h, le_refl _, fun hh => hh, fun hh => Or.inl hh⟩
  | cons e rest ih =>
    intro s c h hterm hno
    rw [runStatusEvents_cons]
    by_cases he : isTerminalEvent e = true
    · obtain ⟨c₁, h₁, hst₁⟩ := statusUpdate_terminal o s sid c h e he
      have hterm₁ : isTerminalStatus c₁.status = true := by
        rw [hst₁]
        by_cases hc : (e == "completed") = true <;> simp [hc, isTerminalStatus]
      obtain ⟨c', h', hrank, hker, _⟩ :=
        ih (handleCallStatusUpdate o s sid e) c₁ h₁
          (fun _ => hno.1 he) hno.2
      refine ⟨c', h', ?_, fun _ => hker hterm₁, fun _ => ?_⟩
      · calc statusRank c.status ≤ 2 := statusRank_le_two _
          _ = statusRank c₁.status := (statusRank_terminal _ hterm₁).symm
          _ ≤ statusRank c'.status := hrank
      · exact Or.inr ⟨e, List.mem_cons_self e rest, he⟩
    · by_cases ha : e = "answered"
      · subst ha
        have hcnt : isTerminalStatus c.status = false := by
          cases hb : isTerminalStatus c.status with
          | false => rfl
          | true =>
            exact absurd rfl (hterm hb "answered" (List.mem_cons_self _ _))
        obtain ⟨c₁, h₁, hst₁⟩ := statusUpdate_answered o s sid c h
        have hterm₁ : isTerminalStatus c₁.status = false := by rw [hst₁]; decide
        obtain ⟨c', h', hrank, hker, hwit⟩ :=
          ih (handleCallStatusUpdate o s sid "answered") c₁ h₁
            (fun hh => by rw [hterm₁] at hh; cases hh) hno.2
        refine ⟨c', h', ?_, ?_, ?_⟩
        · calc statusRank c.status ≤ 1 := statusRank_nonterminal _ hcnt
            _ = statusRank c₁.status := by rw [hst₁]; rfl
            _ ≤ statusRank c'.status := hrank
        · intro hct
          rw [hct] at hcnt; cases hcnt
        · intro hct
          rcases hwit hct with h1 | ⟨x, hx, hxt⟩
          · rw [hterm₁] at h1; cases h1
          · exact Or.inr ⟨x, List.mem_cons_of_mem _ hx, hxt⟩
      · rw [statusUpdate_other o s sid e (by
          cases hb : isTerminalEvent e with
          | false => rfl
          | true => exact absurd hb he) ha]
        obtain ⟨c', h', hrank, hker, hwit⟩ :=
          ih s c h (fun hh x hx => hterm hh x (List.mem_cons_of_mem _ hx)) hno.2
        refine ⟨c', h', hrank, hker, fun hct => ?_⟩
        rcases hwit hct with h1 | ⟨x, hx, hxt⟩
        · exact Or.inl h1
        · exact Or.inr ⟨x, List.mem_cons_of_mem _ hx, hxt⟩

/-- Lemma: `noLateAnswered` restricts to a prefix. -/
theorem noLateAnswered_append_left (pre post : List String)
    (h : noLateAnswered (pre ++ post)) : noLateAnswered pre := by
  induction pre with
  | nil => trivial
  | cons e t ih =>
    exact ⟨fun hte x hx => h.1 hte x (List.mem_append_left _ hx), ih h.2⟩

/-- Lemma: `noLateAnswered` restricts to a suffix. -/
theorem noLateAnswered_append_right (pre post : List String)
    (h : noLateAnswered (pre ++ post)) : noLateAnswered post := by
  induction pre with
  | nil => exact h
  | cons e t ih => exact ih h.2

/-- A terminal event inside the prefix forbids `answered` anywhere in the
suffix. -/
theorem noLateAnswered_cross (pre post : List String)
    (h : noLateAnswered (pre ++ post)) :
    ∀ e ∈ pre, isTerminalEvent e = true → ∀ x ∈ post, x ≠ "answered" := by
  induction pre with
  | nil => intro e he; cases he
  | cons a t ih =>
    intro e he hte x hx
    rcases List.mem_cons.mp he with rfl | het
    · exact h.1 hte x (List.mem_append_right _ hx)
    · exact ih h.2 e het hte x hx

/-- Claim C4, amended: the statuses written by `handleCallStatusUpdate`
move only forward along `initiated → active → completed|failed` provided
no `answered` event is delivered after a terminal event — the handler
applies every event unconditionally, so only that delivery-order proviso
(violated by the counterexample) protects terminal states.  Under it, the
rank never decreases across any split of the event sequence and a
terminal status never reverts to `active` or `initiated`. -/
theorem callStatus_forwardOnly_amended
    (o : Oracle) (s : SysState) (sid : String) (c : StoredCall)
    (hwf : WFst s.storage sid c)
    (hinit : isTerminalStatus c.status = false)
    (pre post : List String)
    (hno : noLateAnswered (pre ++ post)) :
    rankOpt (statusOfSid (runStatusEvents o s sid pre) sid) ≤
      rankOpt (statusOfSid (runStatusEvents o s sid (pre ++ post)) sid) ∧
    (isTerminalStatus ((statusOfSid (runStatusEvents o s sid pre) sid).getD "") = true →
      isTerminalStatus
        ((statusOfSid (runStatusEvents o s sid (pre ++ post)) sid).getD "") = true) := by
  obtain ⟨c₁, h₁, _, _, hwit₁⟩ :=
    runStatusEvents_forward o sid pre s c hwf
      (fun hh => by rw [hinit] at hh; cases hh)
      (noLateAnswered_append_left pre post hno)
  have hcond : isTerminalStatus c₁.status = true → ∀ x ∈ post, x ≠ "answered" := by
    intro hct
    rcases hwit₁ hct with h1 | ⟨e, he, hte⟩
    · rw [hinit] at h1; cases h1
    · exact noLateAnswered_cross pre post hno e he hte
  obtain ⟨c₂, h₂, hrank₂, hker₂, _⟩ :=
    runStatusEvents_forward o sid post (runStatusEvents o s sid pre) c₁ h₁ hcond
      (noLateAnswered_append_right pre post hno)
  rw [runStatusEvents_append]
  rw [statusOfSid_of_WFst _ _ _ h₁, statusOfSid_of_WFst _ _ _ h₂]
  exact ⟨by simpa [rankOpt] using hrank₂, fun hh => hker₂ (by simpa using hh)⟩

/-- The durable call row for claim C4's concrete runs. -/
def callC4 : StoredCall :=
  { id := "db4", twilioCallSid := "CA4", campaignId := some "cg"
    contactId := some "ct", phoneNumber := "+911234" }

/-- State with one call row (session already gone from the Registry, as
after a finished call), for claim C4's concrete runs. -/
def sC4 : SysState :=
  { storage := { calls := [callC4], campaigns := ["cg"] } }

/-- Counterexample to claim C4 as stated: the handler applies a late
`answered` event unconditionally, so a call already written `completed`
is resurrected to `active`. -/
theorem callStatus_resurrection_counterexample :
    statusOfSid (runStatusEvents {} sC4 "CA4" ["completed"]) "CA4" = some "completed" ∧
    statusOfSid (runStatusEvents {} sC4 "CA4" ["completed", "answered"]) "CA4" =
      some "active" := by
  decide

/-- Witness for claim C4 (amended) on a concrete well-ordered delivery. -/
theorem callStatus_forwardOnly_amended_witness :
    rankOpt (statusOfSid (runStatusEvents {} sC4 "CA4" ["answered"]) "CA4") ≤
      rankOpt (statusOfSid (runStatusEvents {} sC4 "CA4" (["answered"] ++ ["completed"]))
        "CA4") := by
  have hwf : WFst sC4.storage "CA4" callC4 := by
    constructor
    · decide
    · intro d hd hdid
      have hd' : d = callC4 := by simpa [sC4] using hd
      rw [hd']
      rfl
  have hno : noLateAnswered (["answered"] ++ ["completed"]) := by
    constructor
    · intro hte; exact absurd hte (by decide)
    · constructor
      · intro hte x hx; exact absurd hx (List.not_mem_nil x)
      · trivial
  exact (callStatus_forwardOnly_amended {} sC4 "CA4" callC4 hwf (by decide)
    ["answered"] ["completed"] hno).1

end CallAgent
